import Mathlib

/-!
Verification of the private-agent RAG backend core
(`backend/app/core/agent_manager.py`, `chroma_store.py`, `embeddings.py`,
`ollama_client.py`) against its design specification.

Modelling conventions:
* Python dicts used as metadata maps become association lists in insertion
  order; dict assignment is an overriding insert, lookup takes the first
  (hence unique) binding.
* Metadata values are strings or integers (`MVal`).
* Embedding vectors are opaque numeric payloads never computed on by this
  code; their components are modelled as `Int`.
* UUID generation (`uuid.uuid4()`) is modelled as drawing consecutive fresh
  identifiers from a counter `nextId` that is larger than every identifier
  already stored; this captures exactly the freshness the code relies on.
* External collaborators (vector search, the generation service, the two
  embedding backends, the text splitter from langchain, file-text
  extraction, wall-clock time) are parameters of the embedded functions,
  as the specification declares them out of scope.
* Python exceptions become `Except String`; functions that mutate process
  state return the post-state alongside the outcome, so that a raising call
  still exhibits its (absence of) side effects.
-/

set_option autoImplicit false

/-- A metadata value stored in a chunk record: Python strings or ints. -/
inductive MVal where
  | s (v : String)
  | n (v : Nat)
  deriving DecidableEq, Repr

/-- Rendering of a metadata value inside a Python f-string. -/
def MVal.render : MVal → String
  | .s v => v
  | .n v => toString v

/-- A Python dict with string keys, kept in insertion order with unique keys. -/
abbrev Dict := List (String × MVal)

/-- Dict lookup: the first (unique) binding for the key, if any. -/
def dget : Dict → String → Option MVal
  | [], _ => none
  | p :: d, k => bif p.1 == k then some p.2 else dget d k

/-- A character of Python's default `str.strip` whitespace set. -/
def isPySpace (c : Char) : Bool :=
  c == ' ' || c == '\t' || c == '\n' || c == '\r' || c == '\x0b' || c == '\x0c'

/-- Python's `str.strip()`: removes leading and trailing whitespace. -/
def pyStrip (s : String) : String :=
  String.mk (((s.data.dropWhile isPySpace).reverse.dropWhile isPySpace).reverse)

/-- Dict assignment `d[k] = v`: overrides an existing binding in place,
otherwise appends a new binding (Python dict update semantics). -/
def dinsert (d : Dict) (k : String) (v : MVal) : Dict :=
  if d.any (fun p => p.1 == k) then
    d.map (fun p => if p.1 == k then (k, v) else p)
  else
    d ++ [(k, v)]

/-- Python `dict.get(k, default)` where the caller expects a string value. -/
def dgetStr (d : Dict) (k : String) (default : String) : String :=
  match dget d k with
  | none => default
  | some v => v.render

/-- A conversation turn supplied by the caller: `{"role": .., "content": ..}`.
(The source reads the keys with `.get("role", "user")` / `.get("content", "")`;
the typed embedding has both fields present, which is the only shape the
HTTP schema ever passes in.) -/
structure Turn where
  role : String
  content : String
  deriving DecidableEq, Repr

/-- A retrieval hit as produced by `ChromaStore.query`:
`{"text": .., "metadata": .., "distance": ..}`; `distance` is absent when the
store returned none. -/
structure Doc where
  text : String
  metadata : Dict
  distance : Option Int
  deriving DecidableEq, Repr

/-- One entry of the `sources` list returned by `ask_agent`. -/
structure SourceEntry where
  filename : String
  chunk_id : String
  text : String
  distance : Int
  deriving DecidableEq, Repr

namespace AgentManager

/-- Truncation limit applied to a hit's text in the prompt context
(`doc["text"][:500]` in `_build_context`). -/
def contextTextLimit : Nat := 500

/-- Truncation limit applied to a hit's text in a returned source
(`doc["text"][:200]` in `_format_sources`). -/
def sourceTextLimit : Nat := 200

/-- Embeds `AgentManager._build_context`: the loop appends one numbered line per
hit (enumerating from 1) after a fixed header, truncating each hit's text to
500 characters with an ellipsis, and joins everything with blank lines. -/
def contextStep (p : Nat × List String) (doc : Doc) : Nat × List String :=
  let filename := dgetStr doc.metadata "filename" "unknown"
  let chunk_id := dgetStr doc.metadata "chunk_id" "unknown"
  let text :=
    if doc.text.length > contextTextLimit then doc.text.take contextTextLimit ++ "..."
    else doc.text
  (p.1 + 1, p.2 ++ [toString p.1 ++ ". From " ++ filename ++ " (chunk " ++ chunk_id ++ "): " ++ text])

def build_context (relevant_docs : List Doc) : String :=
  if relevant_docs.isEmpty then
    "No relevant documents found in the knowledge base."
  else
    let parts := (relevant_docs.foldl contextStep (1, ["Relevant documents from knowledge base:"])).2
    String.intercalate "\n\n" parts

/-- Embeds `AgentManager._build_system_prompt`. -/
def build_system_prompt (base_prompt : String) (context : String) : String :=
  base_prompt ++ "\n\n" ++ context

/-- Embeds `AgentManager._build_conversation_history`: empty history yields the bare
input; otherwise the loop renders `history[-5:]` as `"<role>: <content>"`
lines, appends `"user: <current_input>"`, and joins with newlines. -/
def build_conversation_history (history : List Turn) (current_input : String) : String :=
  if history.isEmpty then
    current_input
  else
    let window := history.drop (history.length - 5)
    let history_parts :=
      window.foldl (fun parts msg => parts ++ [msg.role ++ ": " ++ msg.content]) []
    String.intercalate "\n" (history_parts ++ ["user: " ++ current_input])

/-- Embeds `AgentManager._format_sources`: the loop appends one source entry per
hit, truncating its text to 200 characters with an ellipsis and defaulting a
missing distance to 0. -/
def format_sources (relevant_docs : List Doc) : List SourceEntry :=
  relevant_docs.foldl
    (fun sources doc =>
      sources ++
        [{ filename := dgetStr doc.metadata "filename" "unknown"
           chunk_id := dgetStr doc.metadata "chunk_id" "unknown"
           text :=
             if doc.text.length > sourceTextLimit then doc.text.take sourceTextLimit ++ "..."
             else doc.text
           distance := doc.distance.getD 0 }])
    []

end AgentManager

/-- One stored record of the ChromaDB collection. -/
structure ChunkRecord where
  id : Nat
  text : String
  embedding : List Int
  metadata : Dict
  deriving DecidableEq, Repr

/-- The vector-store state: the single named collection's records in
insertion order, plus the supply of fresh identifiers (`uuid.uuid4()` is
modelled as drawing consecutive unused ids from `nextId`). -/
structure StoreState where
  collection : List ChunkRecord
  nextId : Nat
  deriving DecidableEq, Repr

namespace ChromaStore

/-- Python `os.path.basename` for the paths this code handles: the text after the
last path separator. -/
def basename (p : String) : String :=
  String.mk (p.data.foldl (fun acc c => if c = '/' then [] else acc ++ [c]) [])

/-- The metadata dict built for chunk `i` of an ingestion call: a dict
literal listing the reserved keys first, then `**metadata` spread last, so a
caller-supplied binding overrides a reserved one. -/
def chunkMetadata (file_path : String) (i total : Nat) (metadata : Dict) : Dict :=
  metadata.foldl (fun d kv => dinsert d kv.1 kv.2)
    [("filename", MVal.s (basename file_path)),
     ("chunk_id", MVal.s ("chunk_" ++ toString i)),
     ("chunk_index", MVal.n i),
     ("total_chunks", MVal.n total),
     ("file_path", MVal.s file_path)]

/-- Result record of `ingest_document`. -/
structure IngestResult where
  chunks_created : Nat
  filename : String
  file_size : Nat
  deriving DecidableEq, Repr

/-- Embeds `ChromaStore.ingest_document`, with the external collaborators as
parameters: `splitFn` is the langchain `CharacterTextSplitter`, `embedFn`
the embedding generator, and the extracted `text` stands for the result of
`_extract_text_from_file`. Raising becomes an `.error` outcome carried next
to the post-state. -/
def ingest_document (st : StoreState) (splitFn : String → List String)
    (embedFn : List String → Except String (List (List Int)))
    (file_path : String) (text : String) (metadata : Dict) :
    StoreState × Except String IngestResult :=
  if pyStrip text == "" then
    (st, .error "Document ingestion failed: No text content found in file")
  else
    let chunks := splitFn text
    match embedFn chunks with
    | .error e => (st, .error ("Document ingestion failed: " ++ e))
    | .ok embeddings =>
      let n := chunks.length
      let records := (List.range n).map (fun i =>
        { id := st.nextId + i
          text := chunks.getD i ""
          embedding := embeddings.getD i []
          metadata := chunkMetadata file_path i n metadata })
      ({ collection := st.collection ++ records, nextId := st.nextId + n },
       .ok { chunks_created := n, filename := basename file_path, file_size := text.length })

/-- The underlying ChromaDB `collection.delete(ids=[memory_id])`: removes
any record carrying the id and is a silent no-op when none does (ChromaDB
does not raise for unknown ids). -/
def collectionDelete (st : StoreState) (memory_id : Nat) : StoreState :=
  { st with collection := st.collection.filter (fun r => r.id != memory_id) }

/-- Embeds `ChromaStore.delete_memory`: calls the collection delete and returns
`true`; the `except` branch returning `false` fires only when the store
operation itself raises, which the (total) collection delete never does. -/
def delete_memory (st : StoreState) (memory_id : Nat) : StoreState × Bool :=
  (collectionDelete st memory_id, true)

/-- Embeds `ChromaStore.list_memories`: id, text and metadata of every record. -/
def list_memories (st : StoreState) : List (Nat × String × Dict) :=
  st.collection.map (fun r => (r.id, r.text, r.metadata))

end ChromaStore

/-! Specification-side formulations, written from the specification's words,
to be compared with the embedded source functions. -/

/-- Spec-side: text truncated to `limit` characters with an ellipsis marker
when longer. -/
def truncateEllipsis (limit : Nat) (t : String) : String :=
  if t.length > limit then t.take limit ++ "..." else t

/-- Spec-side: the last `n` elements of a list, oldest of that window first. -/
def lastWindow {α : Type} (n : Nat) (l : List α) : List α :=
  (l.reverse.take n).reverse

/-- Spec-side: one rendered hit line, `"<n>. From <filename> (chunk <chunk_id>): <text>"`. -/
def specHitLine (n : Nat) (doc : Doc) : String :=
  toString n ++ ". From " ++ dgetStr doc.metadata "filename" "unknown" ++
    " (chunk " ++ dgetStr doc.metadata "chunk_id" "unknown" ++ "): " ++
    truncateEllipsis AgentManager.contextTextLimit doc.text

/-- Spec-side: one source entry for a hit. -/
def specSourceEntry (doc : Doc) : SourceEntry :=
  { filename := dgetStr doc.metadata "filename" "unknown"
    chunk_id := dgetStr doc.metadata "chunk_id" "unknown"
    text := truncateEllipsis AgentManager.sourceTextLimit doc.text
    distance := doc.distance.getD 0 }

/-- An agent persona held by the in-memory registry. -/
structure Persona where
  name : String
  system_prompt : String
  model_override : Option String
  created_at : Nat
  deriving DecidableEq, Repr

/-- The agent registry: a Python dict in insertion order with unique keys. -/
abbrev Registry := List (String × Persona)

/-- Registry lookup (`self.agents.get(agent_id)`). -/
def regGet (reg : Registry) (agent_id : String) : Option Persona :=
  (reg.find? (fun p => p.1 == agent_id)).map (fun p => p.2)

/-- Registry assignment (`self.agents[agent_id] = ...`), dict semantics. -/
def regInsert (reg : Registry) (agent_id : String) (p : Persona) : Registry :=
  if reg.any (fun q => q.1 == agent_id) then
    reg.map (fun q => if q.1 == agent_id then (agent_id, p) else q)
  else
    reg ++ [(agent_id, p)]

namespace AgentManager

/-- The built-in default persona's system prompt (source, `AgentManager.__init__`). -/
def defaultSystemPrompt : String :=
  "You are a helpful private assistant. Use only explicitly provided documents and knowledge from the private vector store to answer user queries. If the information is missing, say you don't know and ask clarifying questions. When you include facts from documents, annotate each answer with a \"SOURCES:\" section listing the filename and chunk id used."

/-- The registry as initialised by `AgentManager.__init__`. -/
def initial_agents (now : Nat) : Registry :=
  [("default", { name := "Default Assistant", system_prompt := defaultSystemPrompt,
                 model_override := none, created_at := now })]

/-- Embeds `AgentManager.create_agent`: duplicate ids raise before any mutation;
otherwise the persona is assigned into the registry and returned. -/
def create_agent (reg : Registry) (agent_id name system_prompt : String)
    (model_override : Option String) (now : Nat) : Registry × Except String Persona :=
  if reg.any (fun q => q.1 == agent_id) then
    (reg, .error ("Agent " ++ agent_id ++ " already exists"))
  else
    let p : Persona := { name := name, system_prompt := system_prompt,
                         model_override := model_override, created_at := now }
    (regInsert reg agent_id p, .ok p)

/-- The record returned by a successful `ask_agent` call. -/
structure ChatResult where
  answer : String
  sources : List SourceEntry
  model : String
  timestamp : Nat
  deriving DecidableEq, Repr

/-- The external collaborators one `ask_agent` call interacts with:
the vector search outcome for the user input (`chroma_store.query`), the
generation service (applied to the assembled prompts), the text splitter and
embedding generator used by the write-back, whether the write-back's
`collection.add` raises, the configured default model, and the clock. -/
structure AskEnv where
  queryResult : Except String (List Doc)
  generate : String → String → Except String String
  splitFn : String → List String
  embedFn : List String → Except String (List (List Int))
  storeAddFails : Bool
  default_model : String
  now : Nat

/-- Embeds `AgentManager._store_conversation`: chunks and embeds the exchange and
adds it to the collection; every failure inside is caught and logged, so the
function always returns (the state is simply left as it was). -/
def store_conversation (st : StoreState) (env : AskEnv)
    (user_input response agent_id : String) : StoreState :=
  let conversation_text := "User: " ++ user_input ++ "\nAssistant: " ++ response
  let chunks := env.splitFn conversation_text
  match env.embedFn chunks with
  | .error _ => st
  | .ok embeddings =>
    if env.storeAddFails then st
    else
      let n := chunks.length
      let records := (List.range n).map (fun i =>
        ({ id := st.nextId + i
           text := chunks.getD i ""
           embedding := embeddings.getD i []
           metadata := [("type", MVal.s "conversation"), ("agent_id", MVal.s agent_id),
                        ("timestamp", MVal.s (toString env.now)),
                        ("filename", MVal.s "conversation"),
                        ("chunk_id", MVal.s ("conv_" ++ toString i))] } : ChunkRecord))
      { collection := st.collection ++ records, nextId := st.nextId + n }

/-- Embeds `AgentManager.ask_agent`: look the agent up, retrieve, assemble prompts,
generate, write the exchange back (best effort), and return answer, sources,
model and timestamp; any raising step is wrapped as `"Agent query failed: ..."`. -/
def ask_agent (agents : Registry) (st : StoreState) (env : AskEnv)
    (agent_id user_input : String) (history : List Turn) :
    StoreState × Except String ChatResult :=
  match regGet agents agent_id with
  | none => (st, .error ("Agent query failed: Agent " ++ agent_id ++ " not found"))
  | some agent_config =>
    match env.queryResult with
    | .error e => (st, .error ("Agent query failed: " ++ e))
    | .ok relevant_docs =>
      let context := build_context relevant_docs
      let system_prompt := build_system_prompt agent_config.system_prompt context
      let conversation_history := build_conversation_history history user_input
      let model_name := agent_config.model_override.getD env.default_model
      match env.generate conversation_history system_prompt with
      | .error e => (st, .error ("Agent query failed: " ++ e))
      | .ok response_text =>
        let st' := store_conversation st env user_input response_text agent_id
        (st', .ok { answer := response_text
                    sources := format_sources relevant_docs
                    model := model_name
                    timestamp := env.now })

end AgentManager

namespace EmbeddingGenerator

/-- The two embedding backends, opaque external capabilities: one remote
call per text (`_ollama_embed_one`), the lazy local model load
(`_load_sentence_transformers`), and the local batched encode
(`self._model.encode`). -/
structure Backends where
  ollamaEmbedOne : String → Except String (List Int)
  stLoad : Except String Unit
  stEncode : List String → Except String (List (List Int))

/-- The remote-provider loop of `get_embeddings`: one request per text, in
order, aborting the whole call on the first failure. -/
def ollamaLoop (b : Backends) : List String → Except String (List (List Int))
  | [] => .ok []
  | t :: ts =>
    match b.ollamaEmbedOne t with
    | .error e => .error e
    | .ok v =>
      match ollamaLoop b ts with
      | .error e => .error e
      | .ok vs => .ok (v :: vs)

/-- Embeds `EmbeddingGenerator.get_embeddings`: empty input short-circuits to `[]`;
the `"ollama"` provider embeds one text per request; any other provider
loads the local model lazily and encodes the whole batch. -/
def get_embeddings (provider : String) (b : Backends) (texts : List String) :
    Except String (List (List Int)) :=
  if texts.isEmpty then .ok []
  else if provider == "ollama" then
    ollamaLoop b texts
  else
    match b.stLoad with
    | .error e => .error e
    | .ok _ =>
      match b.stEncode texts with
      | .error e => .error ("Embedding generation failed: " ++ e)
      | .ok embeddings => .ok embeddings

end EmbeddingGenerator

namespace OllamaClient

/-- Source fact: the body of `OllamaClient.generate` contains `yield`
expressions (the streaming branch). -/
def generateBodyHasYield : Bool := true

/-- Source fact: the body of `OllamaClient.generate` contains a `return`
carrying a value (the non-streaming branch's `return data.get("response", "")`). -/
def generateBodyHasValuedReturn : Bool := true

/-- Python's compile-time rule for an `async def`: a body containing
`yield` makes the function an async generator, and a `return` with a value
inside an async generator is a `SyntaxError`, so the definition is rejected
and no call to it can ever produce a value. -/
def pyAcceptsAsyncDef (hasYield hasValuedReturn : Bool) : Bool :=
  !(hasYield && hasValuedReturn)

end OllamaClient

/-- The metadata keys the ingestion path sets itself; a caller-supplied
binding for one of these overrides the computed one because `**metadata` is
spread last in the dict literal. -/
def reservedKeys : List String :=
  ["filename", "chunk_id", "chunk_index", "total_chunks", "file_path"]

/-- A concrete retrieval hit used to exhibit the context-block header. -/
def headerDemoDoc : Doc :=
  { text := "t"
    metadata := [("filename", MVal.s "f"), ("chunk_id", MVal.s "c0")]
    distance := some 0 }

/-- A concrete one-record store used to exercise deletion of an unknown id. -/
def deleteDemoStore : StoreState :=
  { collection := [{ id := 1, text := "hello", embedding := [0], metadata := [] }]
    nextId := 2 }

/-- A concrete pre-call store for the ingestion-metadata witness. -/
def c5Store : StoreState :=
  { collection := [{ id := 0, text := "old", embedding := [], metadata := [] }], nextId := 1 }

/-- A concrete two-chunk splitter for the ingestion-metadata witness. -/
def c5Split : String → List String := fun _ => ["a", "b"]

/-- A concrete embedding function for the ingestion-metadata witness. -/
def c5Embed : List String → Except String (List (List Int)) :=
  fun ts => .ok (ts.map (fun _ => [1]))

/-- Concrete caller metadata (no reserved keys) for the witness. -/
def c5Meta : Dict := [("original_filename", MVal.s "f.txt")]

/-- The store the witness ingestion call produces. -/
def c5StoreAfter : StoreState :=
  { collection :=
      [{ id := 0, text := "old", embedding := [], metadata := [] },
       { id := 1, text := "a", embedding := [1],
         metadata := [("filename", MVal.s "f.txt"), ("chunk_id", MVal.s "chunk_0"),
                      ("chunk_index", MVal.n 0), ("total_chunks", MVal.n 2),
                      ("file_path", MVal.s "d/f.txt"), ("original_filename", MVal.s "f.txt")] },
       { id := 2, text := "b", embedding := [1],
         metadata := [("filename", MVal.s "f.txt"), ("chunk_id", MVal.s "chunk_1"),
                      ("chunk_index", MVal.n 1), ("total_chunks", MVal.n 2),
                      ("file_path", MVal.s "d/f.txt"), ("original_filename", MVal.s "f.txt")] }]
    nextId := 3 }

/-- The result record the witness ingestion call produces. -/
def c5Res : ChromaStore.IngestResult :=
  { chunks_created := 2, filename := "f.txt", file_size := 2 }

/-- Concrete embedding backends for the embedding-adapter witness. -/
def c7Backends : EmbeddingGenerator.Backends :=
  { ollamaEmbedOne := fun _ => .ok [1]
    stLoad := .ok ()
    stEncode := fun ts => .ok (ts.map (fun _ => [0])) }

/-! Helper lemmas about the accumulator loops. -/

theorem foldl_append_singleton {α β : Type} (f : α → β) (l : List α) (acc : List β) :
    l.foldl (fun parts a => parts ++ [f a]) acc = acc ++ l.map f := by
  induction l generalizing acc with
  | nil => simp
  | cons a l ih => simp [List.foldl_cons, ih, List.append_assoc]

theorem build_context_loop (l : List Doc) (i : Nat) (acc : List String) :
    (l.foldl AgentManager.contextStep (i, acc)).2 =
      acc ++ (List.enumFrom i l).map (fun p => specHitLine p.1 p.2) := by
  induction l generalizing i acc with
  | nil => simp
  | cons d l ih =>
    rw [List.foldl_cons, List.enumFrom_cons]
    show (l.foldl AgentManager.contextStep (AgentManager.contextStep (i, acc) d)).2 = _
    rw [show AgentManager.contextStep (i, acc) d =
      (i + 1, acc ++ [specHitLine i d]) from rfl]
    rw [ih]
    simp [List.append_assoc]

/-- Claim C1: the assembled conversation prompt is the current input alone
when the history is empty; otherwise the last 5 history turns in order
(oldest of that window first), each rendered as `"<role>: <content>"`,
followed by `"user: <current_input>"`, joined with newlines; earlier turns
do not appear. -/
theorem build_conversation_history_spec (history : List Turn) (current_input : String) :
    AgentManager.build_conversation_history history current_input =
      if history.isEmpty then current_input
      else
        String.intercalate "\n"
          ((lastWindow 5 history).map (fun m => m.role ++ ": " ++ m.content) ++
            ["user: " ++ current_input]) := by
  unfold AgentManager.build_conversation_history
  by_cases h : history.isEmpty
  · simp [h]
  · simp only [h, if_false]
    have hwin : lastWindow 5 history = history.drop (history.length - 5) := by
      unfold lastWindow
      rw [← List.rtake_eq_reverse_take_reverse, List.rtake]
    rw [hwin, foldl_append_singleton]
    simp

/-- Claim C4, counterexample: with one short hit the rendered context block
is not merely the numbered hit lines joined by blank lines — the code also
emits a leading header line, so the block claimed by C4 differs from the one
the code produces. -/
theorem build_context_header_counterexample :
    AgentManager.build_context [headerDemoDoc] ≠ "1. From f (chunk c0): t" := by
  decide

/-- Claim C4 as amended: the rendered context block is a statement that no
relevant documents were found when the hit list is empty; otherwise it is the
header line `"Relevant documents from knowledge base:"` followed by the hits
each rendered as `"<n>. From <filename> (chunk <chunk_id>): <text>"` with
text truncated to 500 characters plus an ellipsis marker when longer,
numbered 1..n in retrieval order, all joined by blank lines. -/
theorem build_context_amended (docs : List Doc) :
    AgentManager.build_context docs =
      if docs.isEmpty then "No relevant documents found in the knowledge base."
      else
        String.intercalate "\n\n"
          ("Relevant documents from knowledge base:" ::
            (List.enumFrom 1 docs).map (fun p => specHitLine p.1 p.2)) := by
  unfold AgentManager.build_context
  by_cases h : docs.isEmpty
  · simp [h]
  · simp only [h, if_false]
    rw [build_context_loop]
    rfl

/-- Claim C10: every returned source entry carries the hit's filename and
chunk id (defaulting to "unknown"), its text truncated to at most 200
characters with an ellipsis appended when longer, and a distance defaulting
to 0 when the hit carries none; the 200-character source limit is stricter
than the 500-character context limit. -/
theorem format_sources_spec (docs : List Doc) :
    AgentManager.format_sources docs = docs.map specSourceEntry ∧
      AgentManager.sourceTextLimit < AgentManager.contextTextLimit := by
  constructor
  · unfold AgentManager.format_sources
    exact (foldl_append_singleton specSourceEntry docs []).trans (List.nil_append _)
  · decide

/-! Dict lemmas: an overriding insert for one key leaves every other key's
binding untouched. -/

theorem dget_cons_hit (p : String × MVal) (d : Dict) (k : String) (h : p.1 = k) :
    dget (p :: d) k = some p.2 := by
  show (bif p.1 == k then some p.2 else dget d k) = some p.2
  rw [show (p.1 == k) = true by simp [h]]
  rfl

theorem dget_cons_miss (p : String × MVal) (d : Dict) (k : String) (h : p.1 ≠ k) :
    dget (p :: d) k = dget d k := by
  show (bif p.1 == k then some p.2 else dget d k) = dget d k
  rw [show (p.1 == k) = false by simp [h]]
  rfl

theorem dget_map_replace (d : Dict) (k k' : String) (v : MVal) (h : k' ≠ k) :
    dget (d.map (fun p => if p.1 == k' then (k', v) else p)) k = dget d k := by
  induction d with
  | nil => rfl
  | cons q d ih =>
    rw [List.map_cons]
    by_cases hq : q.1 = k'
    · rw [show (if (q.1 == k') = true then (k', v) else q) = (k', v) from by simp [hq]]
      rw [dget_cons_miss _ _ _ h, dget_cons_miss _ _ _ (hq ▸ h), ih]
    · rw [show (if (q.1 == k') = true then (k', v) else q) = q from by simp [hq]]
      by_cases hk : q.1 = k
      · rw [dget_cons_hit _ _ _ hk, dget_cons_hit _ _ _ hk]
      · rw [dget_cons_miss _ _ _ hk, dget_cons_miss _ _ _ hk, ih]

theorem dget_append_ne (d : Dict) (k k' : String) (v : MVal) (h : k' ≠ k) :
    dget (d ++ [(k', v)]) k = dget d k := by
  induction d with
  | nil =>
    rw [List.nil_append, dget_cons_miss _ _ _ h]
  | cons q d ih =>
    by_cases hk : q.1 = k
    · rw [List.cons_append, dget_cons_hit _ _ _ hk, dget_cons_hit _ _ _ hk]
    · rw [List.cons_append, dget_cons_miss _ _ _ hk, dget_cons_miss _ _ _ hk, ih]

theorem dget_dinsert_ne (d : Dict) (k k' : String) (v : MVal) (h : k' ≠ k) :
    dget (dinsert d k' v) k = dget d k := by
  unfold dinsert
  split
  · exact dget_map_replace d k k' v h
  · exact dget_append_ne d k k' v h

theorem dget_foldl_dinsert (m : List (String × MVal)) (d : Dict) (k : String)
    (h : ∀ kv ∈ m, kv.1 ≠ k) :
    dget (m.foldl (fun d kv => dinsert d kv.1 kv.2) d) k = dget d k := by
  induction m generalizing d with
  | nil => rfl
  | cons kv m ih =>
    rw [List.foldl_cons, ih _ (fun x hx => h x (List.mem_cons_of_mem _ hx))]
    exact dget_dinsert_ne d k kv.1 kv.2 (h kv (List.mem_cons_self _ _))

theorem dget_chunkMetadata_reserved (fp : String) (i total : Nat) (m : Dict)
    (h : ∀ kv ∈ m, kv.1 ∉ reservedKeys) :
    dget (ChromaStore.chunkMetadata fp i total m) "chunk_index" = some (MVal.n i) ∧
      dget (ChromaStore.chunkMetadata fp i total m) "chunk_id" =
        some (MVal.s ("chunk_" ++ toString i)) ∧
      dget (ChromaStore.chunkMetadata fp i total m) "total_chunks" = some (MVal.n total) := by
  unfold ChromaStore.chunkMetadata
  refine ⟨?_, ?_, ?_⟩
  · rw [dget_foldl_dinsert _ _ _
      (fun kv hkv heq => h kv hkv (heq ▸ (by decide : "chunk_index" ∈ reservedKeys)))]
    rfl
  · rw [dget_foldl_dinsert _ _ _
      (fun kv hkv heq => h kv hkv (heq ▸ (by decide : "chunk_id" ∈ reservedKeys)))]
    rfl
  · rw [dget_foldl_dinsert _ _ _
      (fun kv hkv heq => h kv hkv (heq ▸ (by decide : "total_chunks" ∈ reservedKeys)))]
    rfl

/-- Claim C2: the conversation write-back is best effort — whether the
store's add raises or not, the outcome `ask_agent` hands back to the caller
(answer, sources, model, timestamp, or the error) is identical; in
particular a write-back failure is never propagated when generation
succeeded. -/
theorem ask_agent_writeback_best_effort (agents : Registry) (st : StoreState)
    (env : AgentManager.AskEnv) (agent_id user_input : String) (history : List Turn) :
    (AgentManager.ask_agent agents st { env with storeAddFails := true }
        agent_id user_input history).2 =
      (AgentManager.ask_agent agents st { env with storeAddFails := false }
        agent_id user_input history).2 := by
  unfold AgentManager.ask_agent
  rcases env with ⟨q, g, spl, ef, sa, dm, nw⟩
  cases regGet agents agent_id with
  | none => rfl
  | some agent_config =>
    dsimp only
    cases q with
    | error e => rfl
    | ok relevant_docs =>
      dsimp only
      cases g (AgentManager.build_conversation_history history user_input)
          (AgentManager.build_system_prompt agent_config.system_prompt
            (AgentManager.build_context relevant_docs)) with
      | error e => rfl
      | ok response_text => rfl

/-- Claim C3: code evaluation at the failing input — deleting an id carried
by no record still returns `true` (the underlying ChromaDB delete is a
silent no-op for unknown ids, and `delete_memory` returns `true` whenever
that call does not raise), leaving the store unchanged; the claim expects
`false` for an unknown id. -/
theorem delete_memory_unknown_id_returns_true :
    (ChromaStore.delete_memory deleteDemoStore 99).2 = true ∧
      (ChromaStore.delete_memory deleteDemoStore 99).1 = deleteDemoStore := by
  decide

/-- Claim C6: ingestion whose extracted text trims to empty fails with the
validation error before any side effect — the returned store is exactly the
pre-call store, so no chunk was created and nothing was added. -/
theorem ingest_document_empty_text (st : StoreState)
    (splitFn : String → List String)
    (embedFn : List String → Except String (List (List Int)))
    (file_path text : String) (metadata : Dict)
    (h : pyStrip text = "") :
    ChromaStore.ingest_document st splitFn embedFn file_path text metadata =
      (st, .error "Document ingestion failed: No text content found in file") := by
  simp [ChromaStore.ingest_document, h]

/-- Witness for the empty-text ingestion theorem at a whitespace-only input. -/
theorem ingest_document_empty_text_witness :
    (pyStrip "  \n " = "") ∧
      ChromaStore.ingest_document { collection := [], nextId := 0 } (fun t => [t])
          (fun ts => .ok (ts.map (fun _ => [0]))) "/tmp/a.txt" "  \n " [] =
        ({ collection := [], nextId := 0 },
         .error "Document ingestion failed: No text content found in file") :=
  ⟨by decide, ingest_document_empty_text _ _ _ _ _ _ (by decide)⟩

/-- Claim C5, counterexample: because `**metadata` is spread after the
computed keys, a caller-supplied `chunk_index` binding overrides the
positional one — ingesting one chunk with caller metadata
`{"chunk_index": 7}` stores `chunk_index = 7`, not `0`. -/
theorem ingest_document_metadata_override_counterexample :
    ((ChromaStore.ingest_document { collection := [], nextId := 0 } (fun t => [t])
          (fun ts => .ok (ts.map (fun _ => [1]))) "f.txt" "a"
          [("chunk_index", MVal.n 7)]).1.collection.get? 0).map
        (fun r => dget r.metadata "chunk_index") = some (some (MVal.n 7)) ∧
      ((ChromaStore.ingest_document { collection := [], nextId := 0 } (fun t => [t])
          (fun ts => .ok (ts.map (fun _ => [1]))) "f.txt" "a"
          [("chunk_index", MVal.n 7)]).1.collection.get? 0).map
        (fun r => dget r.metadata "chunk_index") ≠ some (some (MVal.n 0)) := by
  constructor
  · rfl
  · decide

/-- Claim C5 as amended: provided the caller-supplied metadata contains none
of the reserved keys (`filename`, `chunk_id`, `chunk_index`, `total_chunks`,
`file_path`), a successful ingestion producing `n` chunks appends exactly
`n` records whose metadata at position `i` has `chunk_index = i`,
`chunk_id = "chunk_<i>"` and `total_chunks = n`, and whose id is freshly
generated — distinct for each chunk and unequal to every id stored before
the call. -/
theorem ingest_document_metadata (st : StoreState)
    (splitFn : String → List String)
    (embedFn : List String → Except String (List (List Int)))
    (file_path text : String) (metadata : Dict)
    (wf : ∀ r ∈ st.collection, r.id < st.nextId)
    (hmeta : ∀ kv ∈ metadata, kv.1 ∉ reservedKeys)
    (st' : StoreState) (res : ChromaStore.IngestResult)
    (h : ChromaStore.ingest_document st splitFn embedFn file_path text metadata =
      (st', .ok res)) :
    st'.collection.length = st.collection.length + res.chunks_created ∧
      ∀ i, i < res.chunks_created →
        ∃ r, st'.collection[st.collection.length + i]? = some r ∧
          dget r.metadata "chunk_index" = some (MVal.n i) ∧
          dget r.metadata "chunk_id" = some (MVal.s ("chunk_" ++ toString i)) ∧
          dget r.metadata "total_chunks" = some (MVal.n res.chunks_created) ∧
          r.id = st.nextId + i ∧
          ∀ r0 ∈ st.collection, r.id ≠ r0.id := by
  unfold ChromaStore.ingest_document at h
  by_cases hstrip : (pyStrip text == "") = true
  · rw [if_pos hstrip] at h
    exact absurd (congrArg Prod.snd h) (by simp)
  · rw [if_neg hstrip] at h
    simp only [] at h
    cases hemb : embedFn (splitFn text) with
    | error e =>
      rw [hemb] at h
      exact absurd (congrArg Prod.snd h) (by simp)
    | ok embeddings =>
      rw [hemb] at h
      simp only [Prod.mk.injEq, Except.ok.injEq] at h
      obtain ⟨h1, h2⟩ := h
      subst h1
      subst h2
      constructor
      · simp
      · intro i hi
        simp only at hi
        refine ⟨{ id := st.nextId + i
                  text := (splitFn text).getD i ""
                  embedding := embeddings.getD i []
                  metadata := ChromaStore.chunkMetadata file_path i
                    (splitFn text).length metadata }, ?_, ?_, ?_, ?_, rfl, ?_⟩
        · rw [List.getElem?_append_right (by omega), List.getElem?_map]
          simp [List.getElem?_range, hi]
        · exact (dget_chunkMetadata_reserved file_path i (splitFn text).length
            metadata hmeta).1
        · exact (dget_chunkMetadata_reserved file_path i (splitFn text).length
            metadata hmeta).2.1
        · exact (dget_chunkMetadata_reserved file_path i (splitFn text).length
            metadata hmeta).2.2
        · intro r0 hr0
          have hlt := wf r0 hr0
          dsimp only
          omega

/-- Witness for the amended ingestion-metadata theorem: a concrete two-chunk
ingestion into a one-record store. -/
theorem ingest_document_metadata_witness :
    (∀ r ∈ c5Store.collection, r.id < c5Store.nextId) ∧
      (∀ kv ∈ c5Meta, kv.1 ∉ reservedKeys) ∧
      ChromaStore.ingest_document c5Store c5Split c5Embed "d/f.txt" "ab" c5Meta =
        (c5StoreAfter, .ok c5Res) ∧
      (c5StoreAfter.collection.length = c5Store.collection.length + c5Res.chunks_created ∧
        ∀ i, i < c5Res.chunks_created →
          ∃ r, c5StoreAfter.collection[c5Store.collection.length + i]? = some r ∧
            dget r.metadata "chunk_index" = some (MVal.n i) ∧
            dget r.metadata "chunk_id" = some (MVal.s ("chunk_" ++ toString i)) ∧
            dget r.metadata "total_chunks" = some (MVal.n c5Res.chunks_created) ∧
            r.id = c5Store.nextId + i ∧
            ∀ r0 ∈ c5Store.collection, r.id ≠ r0.id) :=
  ⟨by decide, by decide, by rfl,
    ingest_document_metadata c5Store c5Split c5Embed "d/f.txt" "ab" c5Meta
      (by decide) (by decide) c5StoreAfter c5Res (by rfl)⟩

/-- The remote-provider loop embeds the texts one by one, in order: a
successful run has one vector per text, and the i-th vector is exactly what
the remote endpoint returned for the i-th text. -/
theorem ollamaLoop_spec (b : EmbeddingGenerator.Backends) (texts : List String)
    (vs : List (List Int)) (h : EmbeddingGenerator.ollamaLoop b texts = .ok vs) :
    vs.length = texts.length ∧
      ∀ i : Nat, (texts[i]?).map b.ollamaEmbedOne = (vs[i]?).map Except.ok := by
  induction texts generalizing vs with
  | nil =>
    simp only [EmbeddingGenerator.ollamaLoop, Except.ok.injEq] at h
    subst h
    exact ⟨rfl, fun i => by simp⟩
  | cons t ts ih =>
    unfold EmbeddingGenerator.ollamaLoop at h
    cases he : b.ollamaEmbedOne t with
    | error e => rw [he] at h; exact absurd h (by simp)
    | ok v =>
      rw [he] at h
      cases hl : EmbeddingGenerator.ollamaLoop b ts with
      | error e => rw [hl] at h; exact absurd h (by simp)
      | ok vs' =>
        rw [hl] at h
        simp only [Except.ok.injEq] at h
        subst h
        obtain ⟨hlen, hord⟩ := ih vs' hl
        refine ⟨by simp [hlen], fun i => ?_⟩
        cases i with
        | zero => simp [he]
        | succ j => simpa using hord j

/-- Claim C7: a successful `get_embeddings` call returns one vector per
input text in input order — for the remote provider the i-th vector is the
endpoint's answer for the i-th text, for the local provider the batch is the
encoder's output (whose contract preserves length) — and the empty input
returns the empty list without consulting either backend (the result is the
same for every backend). -/
theorem get_embeddings_spec (provider : String) (b : EmbeddingGenerator.Backends)
    (texts : List String) (vs : List (List Int))
    (hst : ∀ ts es, b.stEncode ts = .ok es → es.length = ts.length)
    (h : EmbeddingGenerator.get_embeddings provider b texts = .ok vs) :
    vs.length = texts.length ∧
      (provider = "ollama" →
        ∀ i : Nat, (texts[i]?).map b.ollamaEmbedOne = (vs[i]?).map Except.ok) ∧
      (provider ≠ "ollama" → texts = [] ∨ b.stEncode texts = .ok vs) ∧
      (∀ c : EmbeddingGenerator.Backends,
        EmbeddingGenerator.get_embeddings provider c [] = .ok []) := by
  have hnil : ∀ c : EmbeddingGenerator.Backends,
      EmbeddingGenerator.get_embeddings provider c [] = .ok [] := fun c => by
    unfold EmbeddingGenerator.get_embeddings
    rfl
  by_cases hemp : texts = []
  · subst hemp
    have h0 := hnil b
    rw [h0] at h
    simp only [Except.ok.injEq] at h
    subst h
    exact ⟨rfl, fun _ i => by simp, fun _ => Or.inl rfl, hnil⟩
  · unfold EmbeddingGenerator.get_embeddings at h
    rw [if_neg (by simpa using hemp)] at h
    by_cases hp : provider = "ollama"
    · rw [if_pos (by simp [hp])] at h
      obtain ⟨hlen, hord⟩ := ollamaLoop_spec b texts vs h
      exact ⟨hlen, fun _ => hord, fun hc => absurd hp hc, hnil⟩
    · rw [if_neg (by simp [hp])] at h
      cases hl : b.stLoad with
      | error e => rw [hl] at h; exact absurd h (by simp)
      | ok u =>
        rw [hl] at h
        cases hs : b.stEncode texts with
        | error e => rw [hs] at h; exact absurd h (by simp)
        | ok es =>
          rw [hs] at h
          simp only [Except.ok.injEq] at h
          subst h
          exact ⟨hst texts es hs, fun hc => absurd hc hp, fun _ => Or.inr rfl, hnil⟩

/-- Witness for the embedding-adapter theorem: concrete backends and a
two-text remote-provider call. -/
theorem get_embeddings_spec_witness :
    (∀ ts es, c7Backends.stEncode ts = .ok es → es.length = ts.length) ∧
      EmbeddingGenerator.get_embeddings "ollama" c7Backends ["a", "b"] =
        .ok [[1], [1]] ∧
      (([[1], [1]] : List (List Int)).length = (["a", "b"] : List String).length ∧
        ("ollama" = "ollama" →
          ∀ i : Nat, ((["a", "b"] : List String)[i]?).map c7Backends.ollamaEmbedOne =
            (([[1], [1]] : List (List Int))[i]?).map Except.ok) ∧
        ("ollama" ≠ "ollama" →
          (["a", "b"] : List String) = [] ∨
            c7Backends.stEncode ["a", "b"] = .ok [[1], [1]]) ∧
        (∀ c : EmbeddingGenerator.Backends,
          EmbeddingGenerator.get_embeddings "ollama" c [] = .ok [])) :=
  ⟨fun ts es h => by cases h; simp, by rfl,
    get_embeddings_spec "ollama" c7Backends ["a", "b"] [[1], [1]]
      (fun ts es h => by cases h; simp) (by rfl)⟩

/-- Claim C8: `create_agent` on an id that already exists raises and leaves
the registry exactly as it was — in particular the persona registered under
that id is unchanged. -/
theorem create_agent_duplicate (reg : Registry) (agent_id name system_prompt : String)
    (model_override : Option String) (now : Nat)
    (h : (regGet reg agent_id).isSome) :
    AgentManager.create_agent reg agent_id name system_prompt model_override now =
      (reg, .error ("Agent " ++ agent_id ++ " already exists")) ∧
      regGet (AgentManager.create_agent reg agent_id name system_prompt
        model_override now).1 agent_id = regGet reg agent_id := by
  have hanyeq : reg.any (fun q => q.1 == agent_id) = true := by
    rw [List.any_eq_true]
    unfold regGet at h
    cases hfind : List.find? (fun p => p.1 == agent_id) reg with
    | none => rw [hfind] at h; simp at h
    | some q =>
      have hp := List.find?_some hfind
      exact ⟨q, List.mem_of_find?_eq_some hfind, by simpa using hp⟩
  have heq : AgentManager.create_agent reg agent_id name system_prompt model_override now =
      (reg, .error ("Agent " ++ agent_id ++ " already exists")) := by
    unfold AgentManager.create_agent
    rw [if_pos hanyeq]
  exact ⟨heq, by rw [heq]⟩

/-- Witness for the duplicate-registration theorem: re-registering the
built-in `"default"` persona. -/
theorem create_agent_duplicate_witness :
    (regGet (AgentManager.initial_agents 0) "default").isSome ∧
      (AgentManager.create_agent (AgentManager.initial_agents 0) "default" "x" "y"
          none 1 =
        (AgentManager.initial_agents 0, .error ("Agent " ++ "default" ++ " already exists")) ∧
        regGet (AgentManager.create_agent (AgentManager.initial_agents 0) "default"
          "x" "y" none 1).1 "default" =
          regGet (AgentManager.initial_agents 0) "default") :=
  ⟨by decide, create_agent_duplicate (AgentManager.initial_agents 0) "default" "x" "y"
    none 1 (by decide)⟩

/-- Claim C9: code evaluation of the defect — `OllamaClient.generate` as
written combines `yield` (streaming branch) with a valued `return`
(non-streaming branch) in one `async def`, which Python's compiler rejects
(`SyntaxError: 'return' with value in async generator`), so no non-streaming
call can ever return the response text as a string. -/
theorem generate_rejected_by_python :
    OllamaClient.pyAcceptsAsyncDef OllamaClient.generateBodyHasYield
      OllamaClient.generateBodyHasValuedReturn = false := rfl
